import Mathlib

/-!
Shallow embedding of the FarmFlow storage layer (`server/storage.ts`):
the record types of `shared/schema.ts`, the in-memory backend
(`MemStorage`, backed by JavaScript `Map`s and monotone id counters)
and the pure row transformations performed by the database backend
(`DatabaseStorage`).  JavaScript `Date` values are modelled as integer
millisecond timestamps; the clock reads (`new Date()`, and `today` =
`new Date()` truncated by `setHours(0,0,0,0)`) are passed in as
explicit parameters `now` and `today`.  `Partial<T>` patch objects are
records of `Option` fields (`none` = field absent from the patch).
-/

namespace FarmFlow

/-- JavaScript `Map` modelled as an association list (insertion order kept). -/
def AListMap (α : Type) := List (Nat × α)

/-- `Map.get(k)`. -/
def aget {α : Type} (m : AListMap α) (k : Nat) : Option α :=
  match m.find? (fun p => p.1 == k) with
  | some p => some p.2
  | none => none

/-- `Map.set(k, v)`: replace in place if the key exists, else append. -/
def aset {α : Type} (m : AListMap α) (k : Nat) (v : α) : AListMap α :=
  match m with
  | [] => [(k, v)]
  | p :: rest => if p.1 == k then (k, v) :: rest else p :: aset rest k v

/-- `Map.delete(k)`: returns whether the key was present, and the map without it. -/
def adel {α : Type} (m : AListMap α) (k : Nat) : Bool × AListMap α :=
  ((aget m k).isSome, m.filter (fun p => p.1 != k))

/-- JavaScript `s1 || s2` on strings: the empty string is falsy. -/
def jsOr (s d : String) : String := if s = "" then d else s

/-! ## Record types (from `shared/schema.ts`) -/

/-- A stored task row.  `dueDate` and `createdAt` are timestamps;
`description` and `recurring` are nullable. -/
structure Task where
  id : Nat
  title : String
  description : Option String
  dueDate : Int
  priority : String
  status : String
  completed : Bool
  assignedTo : String
  userId : Nat
  recurring : Option String
  createdAt : Int
  deriving Repr, DecidableEq

/-- `InsertTask` (insert schema omits `id` and `createdAt`; the remaining
fields carry schema defaults, so they are present after validation). -/
structure InsertTask where
  title : String
  description : Option String
  dueDate : Int
  priority : String
  status : String
  completed : Bool
  assignedTo : String
  userId : Nat
  recurring : Option String
  deriving Repr, DecidableEq

/-- `Partial<Task>`: every field optionally present. -/
structure TaskPatch where
  id : Option Nat := none
  title : Option String := none
  description : Option (Option String) := none
  dueDate : Option Int := none
  priority : Option String := none
  status : Option String := none
  completed : Option Bool := none
  assignedTo : Option String := none
  userId : Option Nat := none
  recurring : Option (Option String) := none
  createdAt : Option Int := none
  deriving Repr, DecidableEq

/-- A stored inventory row.  Quantities are `real` columns, modelled as ℚ. -/
structure Inventory where
  id : Nat
  name : String
  category : String
  quantity : ℚ
  unit : String
  threshold : ℚ
  status : String
  userId : Nat
  lastUpdated : Int
  deriving Repr, DecidableEq

/-- `InsertInventory` (insert schema omits `id`, `lastUpdated` and `status`). -/
structure InsertInventory where
  name : String
  category : String
  quantity : ℚ
  unit : String
  threshold : ℚ
  userId : Nat
  deriving Repr, DecidableEq

/-- `Partial<Inventory>`. -/
structure InventoryPatch where
  id : Option Nat := none
  name : Option String := none
  category : Option String := none
  quantity : Option ℚ := none
  unit : Option String := none
  threshold : Option ℚ := none
  status : Option String := none
  userId : Option Nat := none
  lastUpdated : Option Int := none
  deriving Repr, DecidableEq

/-- A stored equipment row.  `lastUsed` / `nextService` are nullable dates;
the ISO-string round trip in the code preserves the instant, so both are
modelled as optional timestamps. -/
structure Equipment where
  id : Nat
  name : String
  status : String
  lastUsed : Option Int
  assignedTo : Option String
  nextService : Option Int
  userId : Nat
  deriving Repr, DecidableEq

/-- `Partial<Equipment>` (nullable columns patch to `Option (Option _)`:
`some none` = explicit null, `none` = absent). -/
structure EquipmentPatch where
  id : Option Nat := none
  name : Option String := none
  status : Option String := none
  lastUsed : Option (Option Int) := none
  assignedTo : Option (Option String) := none
  nextService : Option (Option Int) := none
  userId : Option Nat := none
  deriving Repr, DecidableEq

/-- A stored contact row (`type` is spelled `ctype` because `type` is a
Lean keyword). -/
structure Contact where
  id : Nat
  name : String
  ctype : String
  email : Option String
  phone : Option String
  address : Option String
  notes : Option String
  userId : Nat
  deriving Repr, DecidableEq

/-- `Partial<Contact>`. -/
structure ContactPatch where
  id : Option Nat := none
  name : Option String := none
  ctype : Option String := none
  email : Option (Option String) := none
  phone : Option (Option String) := none
  address : Option (Option String) := none
  notes : Option (Option String) := none
  userId : Option Nat := none
  deriving Repr, DecidableEq

/-- A stored user row. -/
structure User where
  id : Nat
  username : String
  password : String
  email : String
  name : String
  farmName : String
  role : String
  profileImage : Option String
  language : Option String
  deriving Repr, DecidableEq

/-- `Partial<User>`. -/
structure UserPatch where
  id : Option Nat := none
  username : Option String := none
  password : Option String := none
  email : Option String := none
  name : Option String := none
  farmName : Option String := none
  role : Option String := none
  profileImage : Option (Option String) := none
  language : Option (Option String) := none
  deriving Repr, DecidableEq

/-- A stored weather-preference row. -/
structure WeatherPreference where
  id : Nat
  userId : Nat
  location : String
  units : String
  deriving Repr, DecidableEq

/-! ## The in-memory backend state -/

/-- The private fields of `MemStorage`. -/
structure MemStorage where
  users : AListMap User
  tasks : AListMap Task
  inventoryItems : AListMap Inventory
  equipmentItems : AListMap Equipment
  contactItems : AListMap Contact
  weatherPrefs : AListMap WeatherPreference
  userIdCounter : Nat
  taskIdCounter : Nat
  inventoryIdCounter : Nat
  equipmentIdCounter : Nat
  contactIdCounter : Nat
  weatherPrefIdCounter : Nat

/-- The `MemStorage` constructor state before the demo-data seeding
(empty maps, every counter at 1); the seeding is itself a sequence of
`create*` calls and is not needed by any claim. -/
def memEmpty : MemStorage where
  users := []
  tasks := []
  inventoryItems := []
  equipmentItems := []
  contactItems := []
  weatherPrefs := []
  userIdCounter := 1
  taskIdCounter := 1
  inventoryIdCounter := 1
  equipmentIdCounter := 1
  contactIdCounter := 1
  weatherPrefIdCounter := 1

/-! ## Task status derivation -/

/-- The non-completed branch shared by both backends: the raw due-date
timestamp is compared against `today` (midnight of the current day);
only `today` was truncated to midnight by `setHours(0,0,0,0)`. -/
def deriveDateStatus (today dueDate : Int) : String :=
  if dueDate < today then "overdue"
  else if dueDate = today then "today"
  else "upcoming"

/-- `MemStorage.createTask`.  The status branch covers every case, so the
caller-supplied `status` field of the spread `{...insertTask}` is always
overwritten before the task is stored. -/
def memCreateTask (now today : Int) (s : MemStorage) (t : InsertTask) :
    Task × MemStorage :=
  let id := s.taskIdCounter
  let task : Task :=
    { id := id
      title := t.title
      description := t.description
      dueDate := t.dueDate
      priority := t.priority
      status := if t.completed then "completed" else deriveDateStatus today t.dueDate
      completed := t.completed
      assignedTo := t.assignedTo
      userId := t.userId
      recurring := t.recurring
      createdAt := now }
  (task, { s with tasks := aset s.tasks id task, taskIdCounter := id + 1 })

/-- `{...task, ...data}` for a task patch. -/
def applyTaskPatch (task : Task) (d : TaskPatch) : Task where
  id := d.id.getD task.id
  title := d.title.getD task.title
  description := d.description.getD task.description
  dueDate := d.dueDate.getD task.dueDate
  priority := d.priority.getD task.priority
  status := d.status.getD task.status
  completed := d.completed.getD task.completed
  assignedTo := d.assignedTo.getD task.assignedTo
  userId := d.userId.getD task.userId
  recurring := d.recurring.getD task.recurring
  createdAt := d.createdAt.getD task.createdAt

/-- `MemStorage.updateTask`: merge the patch, then recompute status only
when the patch carries `completed` (`data.completed !== undefined`);
the map entry is written back under the argument id. -/
def memUpdateTask (today : Int) (s : MemStorage) (id : Nat) (d : TaskPatch) :
    Option Task × MemStorage :=
  match aget s.tasks id with
  | none => (none, s)
  | some task =>
    let merged := applyTaskPatch task d
    let updatedTask :=
      match d.completed with
      | none => merged
      | some c =>
        { merged with
            status := if c then "completed" else deriveDateStatus today merged.dueDate }
    (some updatedTask, { s with tasks := aset s.tasks id updatedTask })

/-- `MemStorage.getTask`. -/
def memGetTask (s : MemStorage) (id : Nat) : Option Task :=
  aget s.tasks id

/-- `MemStorage.deleteTask` (`Map.delete` reports whether the key existed). -/
def memDeleteTask (s : MemStorage) (id : Nat) : Bool × MemStorage :=
  let r := adel s.tasks id
  (r.1, { s with tasks := r.2 })

/-- The status stored by `DatabaseStorage.createTask`: start from
`insertTask.status || "upcoming"`, then override in the `completed`,
`dueDate < today` and `dueDate == today` branches — there is no final
`else`, so for a strictly future due date the caller-supplied status
survives. -/
def dbCreateTaskStatus (today : Int) (t : InsertTask) : String :=
  if t.completed then "completed"
  else if t.dueDate < today then "overdue"
  else if t.dueDate = today then "today"
  else jsOr t.status "upcoming"

/-- The row produced by `DatabaseStorage.updateTask` from the existing row
and the patch: `updatedStatus` is `data.status` unless the patch carries
`completed`, in which case it is recomputed from `data.dueDate ?? task.dueDate`;
`set({...data, status: updatedStatus})` skips `undefined` fields. -/
def dbUpdateTaskRow (today : Int) (task : Task) (d : TaskPatch) : Task :=
  let updatedStatus : Option String :=
    match d.completed with
    | none => d.status
    | some c =>
      some (if c then "completed"
            else deriveDateStatus today (d.dueDate.getD task.dueDate))
  { applyTaskPatch task d with status := updatedStatus.getD task.status }

/-! ## Inventory operations -/

/-- The status rule shared by both backends' inventory create/update:
`quantity < threshold ? "low" : "good"`. -/
def inventoryStatus (quantity threshold : ℚ) : String :=
  if quantity < threshold then "low" else "good"

/-- `MemStorage.createInventoryItem`. -/
def memCreateInventoryItem (now : Int) (s : MemStorage) (it : InsertInventory) :
    Inventory × MemStorage :=
  let id := s.inventoryIdCounter
  let item : Inventory :=
    { id := id
      name := it.name
      category := it.category
      quantity := it.quantity
      unit := it.unit
      threshold := it.threshold
      status := inventoryStatus it.quantity it.threshold
      userId := it.userId
      lastUpdated := now }
  (item, { s with inventoryItems := aset s.inventoryItems id item,
                  inventoryIdCounter := id + 1 })

/-- `{...item, ...data}` for an inventory patch (without the trailing
`lastUpdated` override, which `MemStorage.updateInventoryItem` adds). -/
def applyInventoryPatch (item : Inventory) (d : InventoryPatch) : Inventory where
  id := d.id.getD item.id
  name := d.name.getD item.name
  category := d.category.getD item.category
  quantity := d.quantity.getD item.quantity
  unit := d.unit.getD item.unit
  threshold := d.threshold.getD item.threshold
  status := d.status.getD item.status
  userId := d.userId.getD item.userId
  lastUpdated := d.lastUpdated.getD item.lastUpdated

/-- `MemStorage.updateInventoryItem`: `{...item, ...data, lastUpdated: new Date()}`
always restamps `lastUpdated`; status is recomputed only when the patch
carries `quantity` or `threshold`. -/
def memUpdateInventoryItem (now : Int) (s : MemStorage) (id : Nat)
    (d : InventoryPatch) : Option Inventory × MemStorage :=
  match aget s.inventoryItems id with
  | none => (none, s)
  | some item =>
    let merged := { applyInventoryPatch item d with lastUpdated := now }
    let updatedItem :=
      if d.quantity.isSome || d.threshold.isSome then
        { merged with
            status := inventoryStatus (d.quantity.getD item.quantity)
                                      (d.threshold.getD item.threshold) }
      else merged
    (some updatedItem, { s with inventoryItems := aset s.inventoryItems id updatedItem })

/-- `MemStorage.getInventoryItem`. -/
def memGetInventoryItem (s : MemStorage) (id : Nat) : Option Inventory :=
  aget s.inventoryItems id

/-- `MemStorage.deleteInventoryItem`. -/
def memDeleteInventoryItem (s : MemStorage) (id : Nat) : Bool × MemStorage :=
  let r := adel s.inventoryItems id
  (r.1, { s with inventoryItems := r.2 })

/-- The status stored by `DatabaseStorage.createInventoryItem` (same rule). -/
def dbCreateInventoryStatus (it : InsertInventory) : String :=
  inventoryStatus it.quantity it.threshold

/-- The row produced by `DatabaseStorage.updateInventoryItem` from the
existing row and the patch: status is recomputed when `quantity` or
`threshold` is supplied (else `data.status`), and the drizzle `set` call
touches only the supplied columns — `lastUpdated` is NOT restamped. -/
def dbUpdateInventoryRow (item : Inventory) (d : InventoryPatch) : Inventory :=
  let updatedStatus : Option String :=
    if d.quantity.isSome || d.threshold.isSome then
      some (inventoryStatus (d.quantity.getD item.quantity)
                            (d.threshold.getD item.threshold))
    else d.status
  { applyInventoryPatch item d with status := updatedStatus.getD item.status }

/-! ## Equipment, contact and user operations (in-memory backend) -/

/-- `MemStorage.updateEquipmentItem`.  `data.lastUsed ? new Date(data.lastUsed)
: item.lastUsed` keeps the old value both when the field is absent and when
it is an explicit null (null is falsy); the ISO-string round trip preserves
the instant, so it is the identity here. -/
def memUpdateEquipmentItem (s : MemStorage) (id : Nat) (d : EquipmentPatch) :
    Option Equipment × MemStorage :=
  match aget s.equipmentItems id with
  | none => (none, s)
  | some item =>
    let lastUsed := match d.lastUsed with
      | some (some v) => some v
      | _ => item.lastUsed
    let nextService := match d.nextService with
      | some (some v) => some v
      | _ => item.nextService
    let updatedItem : Equipment :=
      { id := d.id.getD item.id
        name := d.name.getD item.name
        status := d.status.getD item.status
        lastUsed := lastUsed
        assignedTo := d.assignedTo.getD item.assignedTo
        nextService := nextService
        userId := d.userId.getD item.userId }
    (some updatedItem, { s with equipmentItems := aset s.equipmentItems id updatedItem })

/-- `MemStorage.getEquipmentItem`. -/
def memGetEquipmentItem (s : MemStorage) (id : Nat) : Option Equipment :=
  aget s.equipmentItems id

/-- `MemStorage.deleteEquipmentItem`. -/
def memDeleteEquipmentItem (s : MemStorage) (id : Nat) : Bool × MemStorage :=
  let r := adel s.equipmentItems id
  (r.1, { s with equipmentItems := r.2 })

/-- `{...contact, ...data}`. -/
def applyContactPatch (c : Contact) (d : ContactPatch) : Contact where
  id := d.id.getD c.id
  name := d.name.getD c.name
  ctype := d.ctype.getD c.ctype
  email := d.email.getD c.email
  phone := d.phone.getD c.phone
  address := d.address.getD c.address
  notes := d.notes.getD c.notes
  userId := d.userId.getD c.userId

/-- `MemStorage.updateContact`. -/
def memUpdateContact (s : MemStorage) (id : Nat) (d : ContactPatch) :
    Option Contact × MemStorage :=
  match aget s.contactItems id with
  | none => (none, s)
  | some c =>
    let updatedContact := applyContactPatch c d
    (some updatedContact, { s with contactItems := aset s.contactItems id updatedContact })

/-- `MemStorage.getContact`. -/
def memGetContact (s : MemStorage) (id : Nat) : Option Contact :=
  aget s.contactItems id

/-- `MemStorage.deleteContact`. -/
def memDeleteContact (s : MemStorage) (id : Nat) : Bool × MemStorage :=
  let r := adel s.contactItems id
  (r.1, { s with contactItems := r.2 })

/-- `MemStorage.updateUser`. -/
def memUpdateUser (s : MemStorage) (id : Nat) (d : UserPatch) :
    Option User × MemStorage :=
  match aget s.users id with
  | none => (none, s)
  | some u =>
    let updatedUser : User :=
      { id := d.id.getD u.id
        username := d.username.getD u.username
        password := d.password.getD u.password
        email := d.email.getD u.email
        name := d.name.getD u.name
        farmName := d.farmName.getD u.farmName
        role := d.role.getD u.role
        profileImage := d.profileImage.getD u.profileImage
        language := d.language.getD u.language }
    (some updatedUser, { s with users := aset s.users id updatedUser })

/-! ## The spec's task-status rule, for comparison -/

/-- Milliseconds in a day. -/
def msPerDay : Int := 86400000

/-- The calendar day (days since epoch, floor division) of a timestamp. -/
def calendarDay (t : Int) : Int := Int.fdiv t msPerDay

/-- The task-status rule as the spec words it: `completed` wins, otherwise
the due date and the current day are compared at calendar-day granularity,
time-of-day ignored on both sides. -/
def specTaskStatus (today dueDate : Int) (completed : Bool) : String :=
  if completed then "completed"
  else if calendarDay dueDate < calendarDay today then "overdue"
  else if calendarDay dueDate = calendarDay today then "today"
  else "upcoming"

/-! ## Operation traces over the in-memory task store (for id freshness) -/

/-- A task-store operation: a create or a delete. -/
inductive TaskOp where
  | create (t : InsertTask)
  | delete (id : Nat)

/-- Run one task-store operation. -/
def stepTaskOp (now today : Int) (s : MemStorage) : TaskOp → MemStorage
  | TaskOp.create t => (memCreateTask now today s t).2
  | TaskOp.delete id => (memDeleteTask s id).2

/-- The ids assigned by the create operations of a trace, in order. -/
def assignedTaskIds (now today : Int) (s : MemStorage) : List TaskOp → List Nat
  | [] => []
  | op :: rest =>
    match op with
    | TaskOp.create _ => s.taskIdCounter :: assignedTaskIds now today (stepTaskOp now today s op) rest
    | TaskOp.delete _ => assignedTaskIds now today (stepTaskOp now today s op) rest

/-! ## Concrete sample data (for counterexamples and witnesses) -/

/-- A sample insert payload (modelled on the demo seed data); `dueDate`
3600000 is 01:00 on calendar day 0, `today` being the midnight timestamp 0. -/
def sampleInsertTask : InsertTask where
  title := "Harvest tomatoes"
  description := some "Harvest ripe tomatoes from field 2"
  dueDate := 3600000
  priority := "high"
  status := "today"
  completed := false
  assignedTo := "Self"
  userId := 1
  recurring := none

/-- Store holding one task (id 1) created at `now = 0`, `today = 0`, with
due date one day in the future; its derived status is `"upcoming"`. -/
def storeUpcoming : MemStorage :=
  (memCreateTask 0 0 memEmpty { sampleInsertTask with dueDate := 86400000 }).2

/-- Store holding one task (id 1) whose due date is one day in the past;
its derived status is `"overdue"`. -/
def storeOverdue : MemStorage :=
  (memCreateTask 0 0 memEmpty { sampleInsertTask with dueDate := -86400000 }).2

/-- `storeUpcoming` after a status-only patch: task 1 now carries
status `"overdue"` while `completed = false` and `dueDate` is tomorrow. -/
def storeInconsistent : MemStorage :=
  (memUpdateTask 0 storeUpcoming 1 { status := some "overdue" }).2

/-- A sample stored task row (as created in `storeUpcoming`). -/
def sampleTask : Task where
  id := 1
  title := "Harvest tomatoes"
  description := some "Harvest ripe tomatoes from field 2"
  dueDate := 86400000
  priority := "high"
  status := "upcoming"
  completed := false
  assignedTo := "Self"
  userId := 1
  recurring := none
  createdAt := 0

/-- A sample inventory insert payload (from the demo seed data). -/
def sampleInsertInventory : InsertInventory where
  name := "Tomato Seeds"
  category := "Seeds"
  quantity := 5
  unit := "kg"
  threshold := 10
  userId := 1

/-- Store holding one inventory item (id 1) created at `now = 5`. -/
def storeInventory : MemStorage :=
  (memCreateInventoryItem 5 memEmpty sampleInsertInventory).2

/-- A sample stored inventory row (as created in `storeInventory`). -/
def sampleInventoryItem : Inventory where
  id := 1
  name := "Tomato Seeds"
  category := "Seeds"
  quantity := 5
  unit := "kg"
  threshold := 10
  status := "low"
  userId := 1
  lastUpdated := 5

/-- A sample stored contact row. -/
def sampleContact : Contact where
  id := 1
  name := "John"
  ctype := "supplier"
  email := some "john@example.com"
  phone := none
  address := none
  notes := none
  userId := 1

/-- `storeUpcoming` with `sampleContact` additionally stored under
contact id 1. -/
def storeTaskContact : MemStorage :=
  { storeUpcoming with contactItems := [(1, sampleContact)], contactIdCounter := 2 }

/-! ## Helper lemmas about the map model -/

theorem aget_cons {α : Type} (p : Nat × α) (m : AListMap α) (k : Nat) :
    aget (p :: m) k = if p.1 == k then some p.2 else aget m k := by
  by_cases h : p.1 == k <;> simp [aget, List.find?_cons, h]

theorem aget_filter_ne {α : Type} (m : AListMap α) (k : Nat) :
    aget (m.filter (fun p => p.1 != k)) k = none := by
  induction m with
  | nil => rfl
  | cons p rest ih =>
    by_cases h : p.1 = k
    · simpa [List.filter_cons, h] using ih
    · simpa [List.filter_cons, h, aget_cons] using ih

theorem aget_aset_self {α : Type} (m : AListMap α) (k : Nat) (v : α) :
    aget (aset m k v) k = some v := by
  induction m with
  | nil => simp [aset, aget_cons]
  | cons p rest ih =>
    by_cases h : p.1 = k <;> simp [aset, h, aget_cons, ih]

/-! ## Helper lemmas about status derivation -/

theorem inventoryStatus_eq_low_iff (q t : ℚ) :
    inventoryStatus q t = "low" ↔ q < t := by
  by_cases h : q < t
  · simp [inventoryStatus, h]
  · simp only [inventoryStatus, if_neg h]
    exact ⟨fun hc => absurd hc (by decide), fun hc => absurd hc h⟩

theorem inventoryStatus_eq_good_of_eq (q t : ℚ) (h : q = t) :
    inventoryStatus q t = "good" := by
  simp [inventoryStatus, h]

theorem deriveDateStatus_spec (today d : Int) :
    (deriveDateStatus today d = "overdue" ↔ d < today)
    ∧ (deriveDateStatus today d = "today" ↔ d = today)
    ∧ (deriveDateStatus today d = "upcoming" ↔ today < d) := by
  unfold deriveDateStatus
  split_ifs with h1 h2 <;>
    refine ⟨⟨fun hs => ?_, fun hd => ?_⟩, ⟨fun hs => ?_, fun hd => ?_⟩,
            ⟨fun hs => ?_, fun hd => ?_⟩⟩ <;>
    first
      | rfl
      | omega
      | (exact absurd hs (by decide))

theorem deriveDateStatus_ne_completed (today d : Int) :
    deriveDateStatus today d ≠ "completed" := by
  unfold deriveDateStatus
  split
  · decide
  · split <;> decide

/-! ## Claim theorems -/

/-- C2: at inventory creation and at every update supplying `quantity` or
`threshold`, in both backends, the stored item's status is `"low"` iff its
quantity is strictly below its threshold, and equality yields `"good"`. -/
theorem inventoryLowIffBelowThreshold
    (now : Int) (s : MemStorage) (it : InsertInventory)
    (id : Nat) (d : InventoryPatch) (item : Inventory)
    (hget : memGetInventoryItem s id = some item)
    (hqt : d.quantity.isSome = true ∨ d.threshold.isSome = true) :
    (((memCreateInventoryItem now s it).1.status = "low"
        ↔ (memCreateInventoryItem now s it).1.quantity
            < (memCreateInventoryItem now s it).1.threshold)
      ∧ (it.quantity = it.threshold → (memCreateInventoryItem now s it).1.status = "good"))
    ∧ ((dbCreateInventoryStatus it = "low" ↔ it.quantity < it.threshold)
      ∧ (it.quantity = it.threshold → dbCreateInventoryStatus it = "good"))
    ∧ (∃ u, (memUpdateInventoryItem now s id d).1 = some u
      ∧ (u.status = "low" ↔ u.quantity < u.threshold)
      ∧ (u.quantity = u.threshold → u.status = "good"))
    ∧ (((dbUpdateInventoryRow item d).status = "low"
        ↔ (dbUpdateInventoryRow item d).quantity < (dbUpdateInventoryRow item d).threshold)
      ∧ ((dbUpdateInventoryRow item d).quantity = (dbUpdateInventoryRow item d).threshold
        → (dbUpdateInventoryRow item d).status = "good")) := by
  have hif : (d.quantity.isSome || d.threshold.isSome) = true := by
    rcases hqt with h | h <;> simp [h]
  refine ⟨⟨inventoryStatus_eq_low_iff _ _, fun h => inventoryStatus_eq_good_of_eq _ _ h⟩,
      ⟨inventoryStatus_eq_low_iff _ _, fun h => inventoryStatus_eq_good_of_eq _ _ h⟩,
      ?_, ?_⟩
  · have hu : (memUpdateInventoryItem now s id d).1
        = some { applyInventoryPatch item d with
            status := inventoryStatus (d.quantity.getD item.quantity)
                                      (d.threshold.getD item.threshold),
            lastUpdated := now } := by
      unfold memUpdateInventoryItem
      rw [show aget s.inventoryItems id = some item from hget, hif]
      rfl
    exact ⟨_, hu, inventoryStatus_eq_low_iff _ _,
      fun h => inventoryStatus_eq_good_of_eq _ _ h⟩
  · unfold dbUpdateInventoryRow
    rw [hif]
    exact ⟨inventoryStatus_eq_low_iff _ _, fun h => inventoryStatus_eq_good_of_eq _ _ h⟩

/-- Witness for C2 at concrete inputs: creating the demo seed item
(5 kg of seeds, threshold 10) and patching the stored item's quantity. -/
theorem inventoryLowIffBelowThreshold_witness :
    ((memCreateInventoryItem 6 storeInventory sampleInsertInventory).1.status = "low"
      ↔ (memCreateInventoryItem 6 storeInventory sampleInsertInventory).1.quantity
          < (memCreateInventoryItem 6 storeInventory sampleInsertInventory).1.threshold)
    ∧ (∃ u, (memUpdateInventoryItem 6 storeInventory 1 { quantity := some 12 }).1 = some u
      ∧ (u.status = "low" ↔ u.quantity < u.threshold)) := by
  have h := inventoryLowIffBelowThreshold 6 storeInventory sampleInsertInventory 1
    { quantity := some 12 } sampleInventoryItem (by decide) (Or.inl (by decide))
  obtain ⟨u, hu, hiff, _⟩ := h.2.2.1
  exact ⟨h.1.1, u, hu, hiff⟩

/-- C5: every in-memory patch operation on a missing identifier returns
`undefined` and leaves the store untouched. -/
theorem updateMissingReturnsAbsent
    (s : MemStorage) (id : Nat) (today now : Int)
    (dt : TaskPatch) (di : InventoryPatch) (de : EquipmentPatch)
    (dc : ContactPatch) (du : UserPatch) :
    (memGetTask s id = none → memUpdateTask today s id dt = (none, s))
    ∧ (memGetInventoryItem s id = none → memUpdateInventoryItem now s id di = (none, s))
    ∧ (memGetEquipmentItem s id = none → memUpdateEquipmentItem s id de = (none, s))
    ∧ (memGetContact s id = none → memUpdateContact s id dc = (none, s))
    ∧ (aget s.users id = none → memUpdateUser s id du = (none, s)) := by
  refine ⟨fun h => ?_, fun h => ?_, fun h => ?_, fun h => ?_, fun h => ?_⟩
  · unfold memUpdateTask; rw [show aget s.tasks id = none from h]
  · unfold memUpdateInventoryItem; rw [show aget s.inventoryItems id = none from h]
  · unfold memUpdateEquipmentItem; rw [show aget s.equipmentItems id = none from h]
  · unfold memUpdateContact; rw [show aget s.contactItems id = none from h]
  · unfold memUpdateUser; rw [show aget s.users id = none from h]

/-- Witness for C5: patching id 42 in a store that only holds id 1. -/
theorem updateMissingReturnsAbsent_witness :
    memUpdateTask 0 storeUpcoming 42 {} = (none, storeUpcoming)
    ∧ memUpdateContact storeUpcoming 42 {} = (none, storeUpcoming) := by
  have h := updateMissingReturnsAbsent storeUpcoming 42 0 0 {} {} {} {} {}
  exact ⟨h.1 (by decide), h.2.2.2.1 (by decide)⟩

/-- C6: each in-memory delete returns `true` exactly when the identifier
was present, a get after the delete finds nothing, and deleting an absent
identifier reports `false`. -/
theorem deleteReportsExistence (s : MemStorage) (id : Nat) :
    (((memDeleteTask s id).1 = true ↔ (memGetTask s id).isSome = true)
      ∧ memGetTask (memDeleteTask s id).2 id = none
      ∧ (memGetTask s id = none → (memDeleteTask s id).1 = false))
    ∧ (((memDeleteInventoryItem s id).1 = true
          ↔ (memGetInventoryItem s id).isSome = true)
      ∧ memGetInventoryItem (memDeleteInventoryItem s id).2 id = none
      ∧ (memGetInventoryItem s id = none → (memDeleteInventoryItem s id).1 = false))
    ∧ (((memDeleteEquipmentItem s id).1 = true
          ↔ (memGetEquipmentItem s id).isSome = true)
      ∧ memGetEquipmentItem (memDeleteEquipmentItem s id).2 id = none
      ∧ (memGetEquipmentItem s id = none → (memDeleteEquipmentItem s id).1 = false))
    ∧ (((memDeleteContact s id).1 = true ↔ (memGetContact s id).isSome = true)
      ∧ memGetContact (memDeleteContact s id).2 id = none
      ∧ (memGetContact s id = none → (memDeleteContact s id).1 = false)) := by
  refine ⟨⟨Iff.rfl, aget_filter_ne _ _, fun h => ?_⟩,
      ⟨Iff.rfl, aget_filter_ne _ _, fun h => ?_⟩,
      ⟨Iff.rfl, aget_filter_ne _ _, fun h => ?_⟩,
      ⟨Iff.rfl, aget_filter_ne _ _, fun h => ?_⟩⟩
  · show (aget s.tasks id).isSome = false
    rw [show aget s.tasks id = none from h]; rfl
  · show (aget s.inventoryItems id).isSome = false
    rw [show aget s.inventoryItems id = none from h]; rfl
  · show (aget s.equipmentItems id).isSome = false
    rw [show aget s.equipmentItems id = none from h]; rfl
  · show (aget s.contactItems id).isSome = false
    rw [show aget s.contactItems id = none from h]; rfl

/-- Witness for C6: deleting the present task 1 of `storeUpcoming`
succeeds and a later get is absent; deleting the absent contact 42 of
the same store reports `false`. -/
theorem deleteReportsExistence_witness :
    (memDeleteTask storeUpcoming 1).1 = true
    ∧ memGetTask (memDeleteTask storeUpcoming 1).2 1 = none
    ∧ (memDeleteContact storeUpcoming 42).1 = false := by
  have h := deleteReportsExistence storeUpcoming 1
  have h42 := deleteReportsExistence storeUpcoming 42
  exact ⟨h.1.1.mpr (by decide), h.1.2.1, h42.2.2.2.2.2 (by decide)⟩

/-- C1 counterexample: with `today` = midnight 0, a due date at 01:00 of
the same calendar day (3600000 ms) is stored as `"upcoming"` by
`MemStorage.createTask`, not `"today"` as the calendar-day rule demands
(only `today` is truncated to midnight, the due date's time-of-day is
kept); and `DatabaseStorage.createTask` keeps a caller-supplied status
(here `"overdue"`) for a strictly future due date instead of deriving
`"upcoming"`. -/
theorem createTaskStatus_counterexample :
    (memCreateTask 0 0 memEmpty sampleInsertTask).1.status = "upcoming"
    ∧ sampleInsertTask.completed = false
    ∧ calendarDay sampleInsertTask.dueDate = calendarDay 0
    ∧ specTaskStatus 0 sampleInsertTask.dueDate false = "today"
    ∧ dbCreateTaskStatus 0
        { sampleInsertTask with dueDate := 86400000, status := "overdue" } = "overdue"
    ∧ specTaskStatus 0 86400000 false = "upcoming" := by decide

/-- C1 (amended): at creation, `completed` forces `"completed"` in both
backends; otherwise the raw due-date timestamp is compared with today's
midnight — strictly before gives `"overdue"`, exactly midnight gives
`"today"`, and strictly after gives `"upcoming"` in the in-memory backend
but the caller-supplied status (defaulting to `"upcoming"`, JS falsiness)
in the database backend; the in-memory task is stored as returned. -/
theorem createTaskStatusAmended (now today : Int) (s : MemStorage) (t : InsertTask) :
    (t.completed = true →
      (memCreateTask now today s t).1.status = "completed"
      ∧ dbCreateTaskStatus today t = "completed")
    ∧ (t.completed = false →
      ((memCreateTask now today s t).1.status = "overdue" ↔ t.dueDate < today)
      ∧ ((memCreateTask now today s t).1.status = "today" ↔ t.dueDate = today)
      ∧ ((memCreateTask now today s t).1.status = "upcoming" ↔ today < t.dueDate)
      ∧ (t.dueDate < today → dbCreateTaskStatus today t = "overdue")
      ∧ (t.dueDate = today → dbCreateTaskStatus today t = "today")
      ∧ (today < t.dueDate → dbCreateTaskStatus today t = jsOr t.status "upcoming"))
    ∧ memGetTask (memCreateTask now today s t).2 s.taskIdCounter
        = some (memCreateTask now today s t).1 := by
  have hspec := deriveDateStatus_spec today t.dueDate
  refine ⟨fun hc => ⟨by simp [memCreateTask, hc], by simp [dbCreateTaskStatus, hc]⟩,
    fun hc => ?_, aget_aset_self _ _ _⟩
  have hst : (memCreateTask now today s t).1.status = deriveDateStatus today t.dueDate := by
    simp [memCreateTask, hc]
  rw [hst]
  refine ⟨hspec.1, hspec.2.1, hspec.2.2,
    fun h => by simp [dbCreateTaskStatus, hc, h],
    fun h => by simp [dbCreateTaskStatus, hc, h],
    fun h => ?_⟩
  have h1 : ¬ t.dueDate < today := by omega
  have h2 : ¬ t.dueDate = today := by omega
  simp [dbCreateTaskStatus, hc, h1, h2]

/-- Witness for C1 (amended): creating a task due one day before
`today = 0` yields status `"overdue"` in both backends. -/
theorem createTaskStatusAmended_witness :
    (memCreateTask 0 0 memEmpty { sampleInsertTask with dueDate := -86400000 }).1.status
      = "overdue"
    ∧ dbCreateTaskStatus 0 { sampleInsertTask with dueDate := -86400000 } = "overdue" := by
  have h := createTaskStatusAmended 0 0 memEmpty { sampleInsertTask with dueDate := -86400000 }
  have h2 := h.2.1 (by decide)
  exact ⟨h2.1.mpr (by decide), h2.2.2.2.1 (by decide)⟩

/-- C3 counterexample: task 1 of `storeOverdue` has status `"overdue"`;
patching only its due date to one day in the future leaves the stored
status `"overdue"` in both backends, although the date rule for the
new due date yields `"upcoming"`. -/
theorem updateTaskDueDateOnly_counterexample :
    ((memUpdateTask 0 storeOverdue 1 { dueDate := some 86400000 }).1.map Task.status
      = some "overdue")
    ∧ deriveDateStatus 0 86400000 = "upcoming"
    ∧ (dbUpdateTaskRow 0 { sampleTask with dueDate := -86400000, status := "overdue" }
        { dueDate := some 86400000 }).status = "overdue" := by decide

/-- C3 (amended): in both backends an update recomputes status only when
the patch carries `completed`: with `completed` absent the status is the
patch's own status field if supplied and otherwise the stored one (a
dueDate-only patch leaves status unchanged); with `completed = true` the
status becomes `"completed"`; with `completed = false` it is rederived
from the patched due date against today's midnight. -/
theorem updateTaskStatusAmended (today : Int) (s : MemStorage) (id : Nat)
    (d : TaskPatch) (task : Task)
    (hget : memGetTask s id = some task) :
    (∃ u, (memUpdateTask today s id d).1 = some u
      ∧ (d.completed = none → u.status = d.status.getD task.status)
      ∧ (d.completed = some true → u.status = "completed")
      ∧ (d.completed = some false →
          u.status = deriveDateStatus today (d.dueDate.getD task.dueDate)))
    ∧ (d.completed = none →
        (dbUpdateTaskRow today task d).status = d.status.getD task.status)
    ∧ (d.completed = some true → (dbUpdateTaskRow today task d).status = "completed")
    ∧ (d.completed = some false →
        (dbUpdateTaskRow today task d).status
          = deriveDateStatus today (d.dueDate.getD task.dueDate)) := by
  have hget' : aget s.tasks id = some task := hget
  rcases hc : d.completed with _ | c
  case none =>
    have hu : (memUpdateTask today s id d).1 = some (applyTaskPatch task d) := by
      unfold memUpdateTask; rw [hget', hc]
    refine ⟨⟨applyTaskPatch task d, hu, fun _ => rfl, fun h => Option.noConfusion h,
        fun h => Option.noConfusion h⟩, fun _ => ?_, fun h => Option.noConfusion h,
        fun h => Option.noConfusion h⟩
    unfold dbUpdateTaskRow; rw [hc]
  case some =>
    cases c
    case false =>
      have hu : (memUpdateTask today s id d).1
          = some { applyTaskPatch task d with
              status := deriveDateStatus today (d.dueDate.getD task.dueDate) } := by
        unfold memUpdateTask; rw [hget', hc]; rfl
      have hdb : (dbUpdateTaskRow today task d).status
          = deriveDateStatus today (d.dueDate.getD task.dueDate) := by
        unfold dbUpdateTaskRow; rw [hc]; rfl
      refine ⟨⟨_, hu, fun h => Option.noConfusion h,
          fun h => absurd (Option.some.inj h) (by decide),
          fun _ => rfl⟩,
        fun h => Option.noConfusion h,
        fun h => absurd (Option.some.inj h) (by decide),
        fun _ => hdb⟩
    case true =>
      have hu : (memUpdateTask today s id d).1
          = some { applyTaskPatch task d with status := "completed" } := by
        unfold memUpdateTask; rw [hget', hc]; rfl
      have hdb : (dbUpdateTaskRow today task d).status = "completed" := by
        unfold dbUpdateTaskRow; rw [hc]; rfl
      refine ⟨⟨_, hu, fun h => Option.noConfusion h, fun _ => rfl,
          fun h => absurd (Option.some.inj h) (by decide)⟩,
        fun h => Option.noConfusion h,
        fun _ => hdb,
        fun h => absurd (Option.some.inj h) (by decide)⟩

/-- Witness for C3 (amended): a dueDate-only patch on task 1 of
`storeOverdue` returns a task still carrying the stored status
`"overdue"`. -/
theorem updateTaskStatusAmended_witness :
    ∃ u, (memUpdateTask 0 storeOverdue 1 { dueDate := some 86400000 }).1 = some u
      ∧ u.status = "overdue" := by
  have h := updateTaskStatusAmended 0 storeOverdue 1 { dueDate := some 86400000 }
    { sampleTask with dueDate := -86400000, status := "overdue" } (by decide)
  obtain ⟨u, hu, hnone, _, _⟩ := h.1
  exact ⟨u, hu, hnone rfl⟩

/-- C4 counterexample: `storeUpcoming` is reached from the constructor
state by one `createTask`; patching its task 1 with only
`status: "completed"` stores status `"completed"` while `completed`
stays `false`, violating the claimed invariant; likewise
`DatabaseStorage.createTask` accepts caller status `"completed"` for a
non-completed future-dated task. -/
theorem taskCompletedInvariant_counterexample :
    ((memUpdateTask 0 storeUpcoming 1 { status := some "completed" }).1.map
        (fun u => (u.status, u.completed))) = some ("completed", false)
    ∧ dbCreateTaskStatus 0
        { sampleInsertTask with dueDate := 86400000, status := "completed" }
      = "completed"
    ∧ sampleInsertTask.completed = false := by decide

/-- C4 (amended): the equivalence `status = "completed" ↔ completed` holds
after every `MemStorage.createTask` and after every update whose patch
carries the `completed` flag, in both backends; it is not preserved by
patches that supply `status` without `completed`, nor by
`DatabaseStorage.createTask` given a caller status `"completed"` on a
non-completed future-dated task. -/
theorem taskCompletedInvariantAmended (now today : Int) (s : MemStorage)
    (t : InsertTask) (id : Nat) (d : TaskPatch) (task : Task)
    (hget : memGetTask s id = some task) (hc : d.completed.isSome = true) :
    ((memCreateTask now today s t).1.status = "completed"
      ↔ (memCreateTask now today s t).1.completed = true)
    ∧ (∃ u, (memUpdateTask today s id d).1 = some u
        ∧ (u.status = "completed" ↔ u.completed = true))
    ∧ ((dbUpdateTaskRow today task d).status = "completed"
      ↔ (dbUpdateTaskRow today task d).completed = true) := by
  have hget' : aget s.tasks id = some task := hget
  obtain ⟨c, hcc⟩ := Option.isSome_iff_exists.mp hc
  refine ⟨?_, ?_, ?_⟩
  · cases hb : t.completed
    · constructor
      · intro h
        simp only [memCreateTask, hb, Bool.false_eq_true, if_false] at h
        exact absurd h (deriveDateStatus_ne_completed today t.dueDate)
      · intro h
        simp [memCreateTask, hb] at h
    · simp [memCreateTask, hb]
  · cases c
    · refine ⟨_, by unfold memUpdateTask; rw [hget', hcc], ?_⟩
      constructor
      · intro h
        exact absurd h (deriveDateStatus_ne_completed today _)
      · intro h
        simp only [applyTaskPatch, hcc, Option.getD_some] at h
        exact absurd h Bool.false_ne_true
    · refine ⟨_, by unfold memUpdateTask; rw [hget', hcc], ?_⟩
      constructor
      · intro _
        show (applyTaskPatch task d).completed = true
        rw [applyTaskPatch]
        simp [hcc]
      · intro _; rfl
  · unfold dbUpdateTaskRow
    rw [hcc]
    cases c
    · constructor
      · intro h
        exact absurd h (deriveDateStatus_ne_completed today _)
      · intro h
        simp only [applyTaskPatch, hcc, Option.getD_some] at h
        exact absurd h Bool.false_ne_true
    · constructor
      · intro _
        show (applyTaskPatch task d).completed = true
        rw [applyTaskPatch]
        simp [hcc]
      · intro _; rfl

/-- Witness for C4 (amended): patching task 1 of `storeUpcoming` with
`completed: true` restores the equivalence. -/
theorem taskCompletedInvariantAmended_witness :
    ∃ u, (memUpdateTask 0 storeUpcoming 1 { completed := some true }).1 = some u
      ∧ (u.status = "completed" ↔ u.completed = true) := by
  have h := taskCompletedInvariantAmended 0 0 storeUpcoming sampleInsertTask 1
    { completed := some true } { sampleTask with dueDate := 86400000 }
    (by decide) (by decide)
  exact h.2.1

/-- C7 counterexample: task 1 of `storeInconsistent` (reached by a create
followed by a status-only patch, all on day 0) stores status `"overdue"`
with `completed = false` and due date 86400000; patching it with exactly
those current `completed`/`dueDate` values on the same day returns status
`"upcoming"` — the self-patch is not status-preserving. -/
theorem selfPatchIdempotent_counterexample :
    ((memGetTask storeInconsistent 1).map
        (fun t => (t.status, t.completed, t.dueDate)))
      = some ("overdue", false, (86400000 : Int))
    ∧ ((memUpdateTask 0 storeInconsistent 1
          { completed := some false, dueDate := some 86400000 }).1.map Task.status)
      = some "upcoming" := by decide

/-- C7 (amended): a self-patch always returns the derived status for the
current day, so it preserves status exactly when the stored status already
equals that derived value (as after any create or completed-bearing patch
evaluated against the same day), in both backends. -/
theorem selfPatchIdempotentAmended (today : Int) (s : MemStorage) (id : Nat)
    (task : Task) (hget : memGetTask s id = some task)
    (hcons : task.status
      = if task.completed then "completed" else deriveDateStatus today task.dueDate) :
    ((memUpdateTask today s id
        { completed := some task.completed, dueDate := some task.dueDate }).1.map Task.status
      = some task.status)
    ∧ (dbUpdateTaskRow today task
        { completed := some task.completed, dueDate := some task.dueDate }).status
      = task.status := by
  have hget' : aget s.tasks id = some task := hget
  have hm : (memUpdateTask today s id
      { completed := some task.completed, dueDate := some task.dueDate }).1.map Task.status
      = some (if task.completed then "completed" else deriveDateStatus today task.dueDate) := by
    unfold memUpdateTask; rw [hget']; rfl
  have hd : (dbUpdateTaskRow today task
      { completed := some task.completed, dueDate := some task.dueDate }).status
      = if task.completed then "completed" else deriveDateStatus today task.dueDate := rfl
  rw [hm, hd, hcons]
  exact ⟨rfl, rfl⟩

/-- Witness for C7 (amended): the self-patch on the consistent task 1 of
`storeUpcoming` keeps its status `"upcoming"`. -/
theorem selfPatchIdempotentAmended_witness :
    (memUpdateTask 0 storeUpcoming 1
        { completed := some false, dueDate := some 86400000 }).1.map Task.status
      = some "upcoming" := by
  have h := selfPatchIdempotentAmended 0 storeUpcoming 1 sampleTask
    (by decide) (by decide)
  exact h.1

/-- C8 counterexample: the `DatabaseStorage.updateInventoryItem` row update
for a quantity-only patch changes the quantity but leaves `lastUpdated` at
its stored value 5 — the update statement never touches the
`last_updated` column, so no mutation time is stamped. -/
theorem inventoryLastUpdated_counterexample :
    (dbUpdateInventoryRow sampleInventoryItem { quantity := some 1 }).lastUpdated = 5
    ∧ sampleInventoryItem.lastUpdated = 5
    ∧ (dbUpdateInventoryRow sampleInventoryItem { quantity := some 1 }).quantity = 1 := by
  decide

/-- C8 (amended): the in-memory backend stamps `lastUpdated` with the
current time at creation and on every successful update (whatever the
patch contains); the database backend's update keeps the stored
`lastUpdated` unless the patch itself supplies one (creation is stamped
by the column default instead). -/
theorem inventoryLastUpdatedAmended (now : Int) (s : MemStorage)
    (it : InsertInventory) (id : Nat) (d : InventoryPatch) (item : Inventory)
    (hget : memGetInventoryItem s id = some item) :
    (memCreateInventoryItem now s it).1.lastUpdated = now
    ∧ (∃ u, (memUpdateInventoryItem now s id d).1 = some u ∧ u.lastUpdated = now)
    ∧ (dbUpdateInventoryRow item d).lastUpdated = d.lastUpdated.getD item.lastUpdated := by
  have hget' : aget s.inventoryItems id = some item := hget
  refine ⟨rfl, ?_, rfl⟩
  unfold memUpdateInventoryItem
  rw [hget']
  cases d.quantity.isSome || d.threshold.isSome <;> exact ⟨_, rfl, rfl⟩

/-- Witness for C8 (amended): a quantity-only patch on item 1 of
`storeInventory` at time 7 returns `lastUpdated = 7` in the in-memory
backend. -/
theorem inventoryLastUpdatedAmended_witness :
    (memCreateInventoryItem 7 storeInventory sampleInsertInventory).1.lastUpdated = 7
    ∧ ∃ u, (memUpdateInventoryItem 7 storeInventory 1 { quantity := some 1 }).1 = some u
        ∧ u.lastUpdated = 7 := by
  have h := inventoryLastUpdatedAmended 7 storeInventory sampleInsertInventory 1
    { quantity := some 1 } sampleInventoryItem (by decide)
  exact ⟨h.1, h.2.1⟩

/-- C9 counterexample: patching task 1 of `storeUpcoming` with only
`completed: true` changes its `status` field from `"upcoming"` to
`"completed"` although `status` is not present in the patch — derived
fields are not frame-preserved. -/
theorem patchFrame_counterexample :
    (({ completed := some true } : TaskPatch).status = none)
    ∧ ((memGetTask storeUpcoming 1).map Task.status = some "upcoming")
    ∧ ((memUpdateTask 0 storeUpcoming 1 { completed := some true }).1.map Task.status
        = some "completed") := by decide

/-- C9 (amended): on a successful patch every non-derived field absent
from the patch keeps its previous value — all ten non-status task fields
(`createdAt` included, so any patch without `createdAt` leaves it
unchanged) and all contact fields — while the task `status` is only
guaranteed unchanged when the patch supplies neither `completed` nor
`status`. -/
theorem patchFrameAmended (today : Int) (s : MemStorage) (id idc : Nat)
    (d : TaskPatch) (task : Task) (dc : ContactPatch) (c : Contact)
    (hget : memGetTask s id = some task)
    (hgetc : memGetContact s idc = some c) :
    (∃ u, (memUpdateTask today s id d).1 = some u
      ∧ (d.id = none → u.id = task.id)
      ∧ (d.title = none → u.title = task.title)
      ∧ (d.description = none → u.description = task.description)
      ∧ (d.dueDate = none → u.dueDate = task.dueDate)
      ∧ (d.priority = none → u.priority = task.priority)
      ∧ (d.completed = none → u.completed = task.completed)
      ∧ (d.assignedTo = none → u.assignedTo = task.assignedTo)
      ∧ (d.userId = none → u.userId = task.userId)
      ∧ (d.recurring = none → u.recurring = task.recurring)
      ∧ (d.createdAt = none → u.createdAt = task.createdAt)
      ∧ (d.completed = none → d.status = none → u.status = task.status))
    ∧ (∃ v, (memUpdateContact s idc dc).1 = some v
      ∧ (dc.id = none → v.id = c.id)
      ∧ (dc.name = none → v.name = c.name)
      ∧ (dc.ctype = none → v.ctype = c.ctype)
      ∧ (dc.email = none → v.email = c.email)
      ∧ (dc.phone = none → v.phone = c.phone)
      ∧ (dc.address = none → v.address = c.address)
      ∧ (dc.notes = none → v.notes = c.notes)
      ∧ (dc.userId = none → v.userId = c.userId)) := by
  have hget' : aget s.tasks id = some task := hget
  have hgetc' : aget s.contactItems idc = some c := hgetc
  constructor
  · rcases hcm : d.completed with _ | cb
    case none =>
      have hu : (memUpdateTask today s id d).1 = some (applyTaskPatch task d) := by
        unfold memUpdateTask; rw [hget', hcm]
      exact ⟨_, hu,
        fun h => by simp [applyTaskPatch, h],
        fun h => by simp [applyTaskPatch, h],
        fun h => by simp [applyTaskPatch, h],
        fun h => by simp [applyTaskPatch, h],
        fun h => by simp [applyTaskPatch, h],
        fun h => by simp [applyTaskPatch, hcm],
        fun h => by simp [applyTaskPatch, h],
        fun h => by simp [applyTaskPatch, h],
        fun h => by simp [applyTaskPatch, h],
        fun h => by simp [applyTaskPatch, h],
        fun _ h2 => by simp [applyTaskPatch, h2]⟩
    case some =>
      have hu : (memUpdateTask today s id d).1
          = some { applyTaskPatch task d with
              status := if cb then "completed"
                        else deriveDateStatus today (applyTaskPatch task d).dueDate } := by
        unfold memUpdateTask; rw [hget', hcm]
      exact ⟨_, hu,
        fun h => by simp [applyTaskPatch, h],
        fun h => by simp [applyTaskPatch, h],
        fun h => by simp [applyTaskPatch, h],
        fun h => by simp [applyTaskPatch, h],
        fun h => by simp [applyTaskPatch, h],
        fun h => Option.noConfusion h,
        fun h => by simp [applyTaskPatch, h],
        fun h => by simp [applyTaskPatch, h],
        fun h => by simp [applyTaskPatch, h],
        fun h => by simp [applyTaskPatch, h],
        fun h => Option.noConfusion h⟩
  · have hv : (memUpdateContact s idc dc).1 = some (applyContactPatch c dc) := by
      unfold memUpdateContact; rw [hgetc']
    exact ⟨_, hv,
      fun h => by simp [applyContactPatch, h],
      fun h => by simp [applyContactPatch, h],
      fun h => by simp [applyContactPatch, h],
      fun h => by simp [applyContactPatch, h],
      fun h => by simp [applyContactPatch, h],
      fun h => by simp [applyContactPatch, h],
      fun h => by simp [applyContactPatch, h],
      fun h => by simp [applyContactPatch, h]⟩

/-- Witness for C9 (amended): a title-only patch on task 1 of
`storeTaskContact` keeps `createdAt` and `status`, and a phone-only patch
on contact 1 keeps the contact's name. -/
theorem patchFrameAmended_witness :
    (∃ u, (memUpdateTask 0 storeTaskContact 1 { title := some "Weed the field" }).1 = some u
      ∧ u.createdAt = sampleTask.createdAt ∧ u.status = sampleTask.status)
    ∧ (∃ v, (memUpdateContact storeTaskContact 1 { phone := some (some "555") }).1 = some v
      ∧ v.name = sampleContact.name) := by
  have h := patchFrameAmended 0 storeTaskContact 1 1 { title := some "Weed the field" }
    sampleTask { phone := some (some "555") } sampleContact (by decide) (by decide)
  obtain ⟨u, hu, _, _, _, _, _, _, _, _, _, hCreated, hStatus⟩ := h.1
  obtain ⟨v, hv, _, hName, _⟩ := h.2
  exact ⟨⟨u, hu, hCreated rfl, hStatus rfl rfl⟩, ⟨v, hv, hName rfl⟩⟩

/-- The task-id counter never decreases along a step. -/
theorem stepTaskOp_counter_le (now today : Int) (s : MemStorage) (op : TaskOp) :
    s.taskIdCounter ≤ (stepTaskOp now today s op).taskIdCounter := by
  cases op
  · exact Nat.le_succ _
  · exact Nat.le_refl _

/-- Every id assigned along a trace is at least the starting counter. -/
theorem assignedTaskIds_lower (now today : Int) (ops : List TaskOp) :
    ∀ (s : MemStorage), ∀ i ∈ assignedTaskIds now today s ops, s.taskIdCounter ≤ i := by
  induction ops with
  | nil => intro s i hi; simp [assignedTaskIds] at hi
  | cons op rest ih =>
    intro s i hi
    cases op with
    | create t =>
      simp only [assignedTaskIds] at hi
      rcases List.mem_cons.mp hi with h | h
      · exact h ▸ Nat.le_refl _
      · exact Nat.le_trans (stepTaskOp_counter_le now today s (TaskOp.create t))
          (ih _ _ h)
    | delete i' =>
      simp only [assignedTaskIds] at hi
      exact Nat.le_trans (stepTaskOp_counter_le now today s (TaskOp.delete i'))
        (ih _ _ hi)

/-- C10: along any sequence of in-memory task creates and deletes, the ids
assigned by the creates are pairwise strictly increasing in order of
assignment — each create's id exceeds every previously assigned id, so a
deleted id is never handed out again. -/
theorem memTaskIdsStrictlyIncreasing (now today : Int) (s : MemStorage)
    (ops : List TaskOp) :
    List.Pairwise (· < ·) (assignedTaskIds now today s ops) := by
  induction ops generalizing s with
  | nil => simp [assignedTaskIds]
  | cons op rest ih =>
    cases op with
    | create t =>
      simp only [assignedTaskIds]
      refine List.pairwise_cons.mpr ⟨?_, ih _⟩
      intro i hi
      have hlow := assignedTaskIds_lower now today rest
        (stepTaskOp now today s (TaskOp.create t)) i hi
      have hstep : (stepTaskOp now today s (TaskOp.create t)).taskIdCounter
          = s.taskIdCounter + 1 := rfl
      omega
    | delete i' =>
      simp only [assignedTaskIds]
      exact ih _

end FarmFlow
